import Mathlib

/-!
Shallow embedding of the auction worker's event-consumption pipeline:
the bid domain handler (`internal/consumers`, the revision embedded in
`src/internal/middleware/security_headers.go`), the auction-item domain
logic (`domain/item.go`, `src/unnamed/part_004`), the Postgres repository
(`infra/postgres/repository.go`) and the RabbitMQ delivery lifecycle
controller (`infra/rabbitmq/consumer.go`), together with theorems
settling the claims about them.

Conventions: Go `time.Time` and `time.Duration` are embedded as `Int`
nanoseconds since the Unix epoch (Go durations are int64 nanoseconds);
Go errors are embedded as their message strings; external stdlib and
library collaborators (`encoding/json`, `time.Parse`, shopspring
`decimal`) are modelled by small executable functions covering the
subset the worker exercises.
-/

/-- Go `time.Time` as nanoseconds since the Unix epoch. -/
abbrev GoTime := Int

/-- Go `time.Duration` (int64 nanoseconds). -/
abbrev GoDuration := Int

/-- Go `time.Minute` = 60 * 1e9 nanoseconds. -/
def timeMinute : GoDuration := 60 * 1000000000

/-- Go errors carried as their `Error()` message string. -/
abbrev GoError := String

/-- Whether `cs` begins with `pat`. -/
def listStartsWith : List Char → List Char → Bool
  | _, [] => true
  | [], _ :: _ => false
  | c :: cs, d :: ds => c == d && listStartsWith cs ds

/-- Whether `pat` occurs contiguously inside `cs`. -/
def listHasInfix (pat : List Char) : List Char → Bool
  | [] => listStartsWith [] pat
  | c :: cs => listStartsWith (c :: cs) pat || listHasInfix pat cs

/-- Go `strings.Contains(s, sub)`. -/
def stringsContains (s sub : String) : Bool :=
  listHasInfix sub.toList s.toList

/-- Fold a digit list into a natural number; `none` if any char is not a digit. -/
def parseDigits (cs : List Char) : Option Nat :=
  cs.foldl
    (fun acc c =>
      match acc with
      | none => none
      | some n => if c.isDigit then some (n * 10 + (c.toNat - 48)) else none)
    (some 0)

/-- shopspring `decimal.Decimal`: the represented number is `value * 10 ^ exp`. -/
structure Decimal where
  value : Int
  exp : Int
deriving DecidableEq, Repr

namespace decimal

/-- shopspring `decimal.NewFromString` (external collaborator), modelled on the
plain `[-+]?digits[.digits]` forms the worker's payloads use; `none` is the
error case. -/
def NewFromString (s : String) : Option Decimal :=
  let signBody : Int × List Char :=
    match s.toList with
    | '-' :: rest => (-1, rest)
    | '+' :: rest => (1, rest)
    | rest => (1, rest)
  let body := signBody.2
  let dots := body.count '.'
  if dots == 0 then
    if body.isEmpty then none
    else
      match parseDigits body with
      | some n => some ⟨signBody.1 * n, 0⟩
      | none => none
  else if dots == 1 then
    let intPart := body.takeWhile (fun c => c != '.')
    let fracPart := (body.dropWhile (fun c => c != '.')).drop 1
    if intPart.isEmpty && fracPart.isEmpty then none
    else
      match parseDigits (intPart ++ fracPart) with
      | some n => some ⟨signBody.1 * n, -(fracPart.length : Int)⟩
      | none => none
  else none

end decimal

/-- Days since 1970-01-01 of a proleptic-Gregorian civil date (the standard
days-from-civil computation used to model Go's `time` package). -/
def daysFromCivil (y m d : Nat) : Int :=
  let y' := if m ≤ 2 then y - 1 else y
  let era := y' / 400
  let yoe := y' % 400
  let mp := (m + 9) % 12
  let doy := (153 * mp + 2) / 5 + d - 1
  let doe := yoe * 365 + yoe / 4 - yoe / 100 + doy
  ((era * 146097 + doe : Nat) : Int) - 719468

/-- Go `time.Parse(time.RFC3339, s)` (external collaborator), modelled for the
UTC `YYYY-MM-DDTHH:MM:SSZ` form the bid events carry; `none` is the parse
error case. -/
def timeParseRFC3339 (s : String) : Option GoTime :=
  match s.toList with
  | [y1, y2, y3, y4, '-', mo1, mo2, '-', d1, d2, 'T',
     h1, h2, ':', mi1, mi2, ':', s1, s2, 'Z'] => do
      let y ← parseDigits [y1, y2, y3, y4]
      let mo ← parseDigits [mo1, mo2]
      let d ← parseDigits [d1, d2]
      let h ← parseDigits [h1, h2]
      let mi ← parseDigits [mi1, mi2]
      let ss ← parseDigits [s1, s2]
      if 1 ≤ mo ∧ mo ≤ 12 ∧ 1 ≤ d ∧ d ≤ 31 ∧ h ≤ 23 ∧ mi ≤ 59 ∧ ss ≤ 59 then
        some ((daysFromCivil y mo d * 86400 + (h * 3600 + mi * 60 + ss : Nat))
                * 1000000000)
      else none
  | _ => none

/-- A JSON value inside an event payload object; only string-typed values are
inspected by the handlers (via Go type assertions `.(string)`), so other
values are collapsed into `other`. -/
inductive JVal where
  | str : String → JVal
  | other : JVal
deriving DecidableEq, Repr

/-- An event payload after `json.Unmarshal` into `map[string]any`. -/
abbrev Payload := List (String × JVal)

/-- Go `payload[k].(string)`: `some s` exactly when key `k` is present and its
value is a string. -/
def Payload.lookupStr (p : Payload) (k : String) : Option String :=
  match p.find? (fun kv => kv.1 == k) with
  | some (_, JVal.str s) => some s
  | _ => none

/-- domain.Item (src/unnamed/part_004). -/
structure Item where
  ID : String
  Name : String := ""
  Description : Option String := none
  SellerID : String := ""
  BuyerID : Option String := none
  CurrencyCode : String := ""
  StartPrice : Decimal := ⟨0, 0⟩
  CurrentPrice : Decimal := ⟨0, 0⟩
  BidIncrement : Option Decimal := none
  ReservePrice : Option Decimal := none
  BuyoutPrice : Option Decimal := none
  EndPrice : Option Decimal := none
  StartDate : GoTime := 0
  EndDate : GoTime := 0
  Status : String := ""
  CreatedAt : GoTime := 0
  UpdatedAt : GoTime := 0
  ExtensionThresholdMinutes : Option Int := none
  ExtensionDurationMinutes : Option Int := none
  Version : Int := 1
deriving DecidableEq, Repr

/-- domain.DefaultExtensionThresholdMinutes. -/
def DefaultExtensionThresholdMinutes : Int := 10

/-- domain.DefaultExtensionDurationMinutes. -/
def DefaultExtensionDurationMinutes : Int := 5

namespace Item

/-- Item.GetExtensionThreshold (src/unnamed/part_004). -/
def GetExtensionThreshold (i : Item) : GoDuration :=
  match i.ExtensionThresholdMinutes with
  | some m => if m > 0 then m * timeMinute else DefaultExtensionThresholdMinutes * timeMinute
  | none => DefaultExtensionThresholdMinutes * timeMinute

/-- Item.GetExtensionDuration (src/unnamed/part_004). -/
def GetExtensionDuration (i : Item) : GoDuration :=
  match i.ExtensionDurationMinutes with
  | some m => if m > 0 then m * timeMinute else DefaultExtensionDurationMinutes * timeMinute
  | none => DefaultExtensionDurationMinutes * timeMinute

/-- Item.ShouldExtendForBid (src/unnamed/part_004). -/
def ShouldExtendForBid (i : Item) (bidTime : GoTime) : Bool :=
  let timeUntilEnd := i.EndDate - bidTime
  let threshold := i.GetExtensionThreshold
  timeUntilEnd > 0 && timeUntilEnd ≤ threshold

/-- Item.CalculateNewEndDate (src/unnamed/part_004). -/
def CalculateNewEndDate (i : Item) : GoTime :=
  i.EndDate + i.GetExtensionDuration

end Item

/-- events.Event (src/pkg/events/event.go); the payload is kept in its
`json.Unmarshal`-ed object form. -/
structure Event where
  Event : String
  Version : String
  Timestamp : GoTime
  Payload : Payload
  TraceID : String
  CorrelationID : String
deriving DecidableEq, Repr

/-- The `items` table keyed by the `id` column. -/
abbrev ItemsTable := String → Option Item

namespace PgRepository

/-- PgRepository.GetItem (src/infra/postgres/repository.go): `SELECT ... FROM
items ... WHERE items.id = $1`; `sqlx` returns `sql.ErrNoRows` when no row
matches. -/
def GetItem (db : ItemsTable) (id : String) : Except GoError Item :=
  match db id with
  | some row => .ok row
  | none => .error "sql: no rows in result set"

/-- The column assignments of PgRepository.Update's `UPDATE items SET ...`
statement applied to a stored row (src/infra/postgres/repository.go lines
357-395): exactly name, description, seller_id, currency_code, current_price,
start_price, bid_increment, reserve_price, buyout_price, end_price,
start_date, end_date and status; `updated_at` is set by the
`trg_items_updated_at` trigger; `buyer_id` and `version` are not in the
column list and keep their stored values. -/
def updateColumns (row item : Item) (now : GoTime) : Item :=
  { row with
    Name := item.Name
    Description := item.Description
    SellerID := item.SellerID
    CurrencyCode := item.CurrencyCode
    CurrentPrice := item.CurrentPrice
    StartPrice := item.StartPrice
    BidIncrement := item.BidIncrement
    ReservePrice := item.ReservePrice
    BuyoutPrice := item.BuyoutPrice
    EndPrice := item.EndPrice
    StartDate := item.StartDate
    EndDate := item.EndDate
    Status := item.Status
    UpdatedAt := now }

/-- PgRepository.Update (src/infra/postgres/repository.go lines 357-395):
`UPDATE items SET ... WHERE id = :id` via `NamedExecContext`. The WHERE
clause carries only the id — no version predicate — and the error result
only reflects statement execution, which succeeds regardless of how many
rows matched, so in this embedding of the statement's semantics the error
is always `none`. -/
def Update (db : ItemsTable) (item : Item) (now : GoTime) :
    ItemsTable × Option GoError :=
  (fun k =>
    match db k with
    | some row => if row.ID == item.ID then some (updateColumns row item now) else some row
    | none => none,
   none)

end PgRepository

/-- A repository call made by the bid handler, for tracing which items the
domain layer reads and writes. -/
inductive RepoOp where
  | getItem : String → RepoOp
  | update : String → RepoOp
deriving DecidableEq, Repr

/-- Result of one domain-handler invocation: the items table after it, the
repository calls it made, and its returned error (Go `error`, `.ok` = `nil`). -/
structure HandlerOut where
  db : ItemsTable
  ops : List RepoOp
  res : Except GoError Unit

/-- The in-memory transformation `handleBidPlaced` applies between the fresh
read and the `Update` call on each attempt (security_headers.go lines
135-153): set `CurrentPrice` to the bid amount, extend `EndDate` when
`ShouldExtendForBid`, stamp `UpdatedAt`. -/
def bidPlacedApply (item0 : Item) (price : Decimal) (bidTime now : GoTime) : Item :=
  let item1 := { item0 with CurrentPrice := price }
  let item2 :=
    if item1.ShouldExtendForBid bidTime then { item1 with EndDate := item1.CalculateNewEndDate }
    else item1
  { item2 with UpdatedAt := now }

/-- The bid timestamp used by `handleBidPlaced` (security_headers.go lines
114-119): the event envelope's timestamp, overridden by the payload's
`Timestamp` field when that is a string parsing as RFC 3339. -/
def bidTimeOf (event : Event) : GoTime :=
  match event.Payload.lookupStr "Timestamp" with
  | some s =>
      match timeParseRFC3339 s with
      | some t => t
      | none => event.Timestamp
  | none => event.Timestamp

/-- `maxRetries` of handleBidPlaced (security_headers.go line 128). -/
def maxRetries : Nat := 3

namespace BidEventHandler

/-- The `for attempt := 1; attempt <= maxRetries; attempt++` loop of
handleBidPlaced (security_headers.go lines 128-182) against the Postgres
repository: fresh `GetItem` per attempt, parse the amount, apply the bid,
`Update`; retry (after the `10ms × attempt` backoff, not modelled further
here because `PgRepository.Update` cannot fail) only when the update error
contains "optimistic lock failed" and attempts remain. `fuel` counts loop
iterations left, so the `fuel = 0` case is the unreachable
"max retries reached" return after the loop. -/
def bidPlacedLoop (amountStr : String) (bidTime now : GoTime) (itemID : String) :
    Nat → Nat → ItemsTable → List RepoOp → HandlerOut
  | 0, _, db, ops => ⟨db, ops, .error "unexpected error: max retries reached"⟩
  | fuel + 1, attempt, db, ops =>
    match PgRepository.GetItem db itemID with
    | .error e => ⟨db, ops ++ [.getItem itemID], .error ("failed to get item: " ++ e)⟩
    | .ok item0 =>
      match decimal.NewFromString amountStr with
      | none =>
          ⟨db, ops ++ [.getItem itemID], .error "malformed payload - invalid amount format"⟩
      | some price =>
        let written := bidPlacedApply item0 price bidTime now
        let upd := PgRepository.Update db written now
        let ops' := ops ++ [.getItem itemID, .update written.ID]
        match upd.2 with
        | none => ⟨upd.1, ops', .ok ()⟩
        | some e =>
          if stringsContains e "optimistic lock failed" then
            if attempt < maxRetries then
              bidPlacedLoop amountStr bidTime now itemID fuel (attempt + 1) upd.1 ops'
            else
              ⟨upd.1, ops',
               .error "failed to update item after 3 retries due to concurrent modifications"⟩
          else ⟨upd.1, ops', .error ("failed to update item: " ++ e)⟩

/-- handleBidPlaced (security_headers.go lines 93-183): payload field
extraction, then the retry loop. The `json.Marshal`/`json.Unmarshal`
round-trip of the already-decoded payload map is the identity here. -/
def handleBidPlaced (db : ItemsTable) (now : GoTime) (event : Event) : HandlerOut :=
  match event.Payload.lookupStr "ItemID" with
  | none => ⟨db, [], .error "malformed payload - itemId missing or invalid"⟩
  | some itemID =>
    if itemID == "" then ⟨db, [], .error "malformed payload - itemId missing or invalid"⟩
    else
      match event.Payload.lookupStr "Amount" with
      | none => ⟨db, [], .error "malformed payload - amount missing or invalid"⟩
      | some amountStr =>
        if amountStr == "" then ⟨db, [], .error "malformed payload - amount missing or invalid"⟩
        else
          bidPlacedLoop amountStr (bidTimeOf event) now itemID maxRetries 1 db []

/-- handleBidWon (security_headers.go lines 185-240): validate `ItemID`,
`BuyerID`, `FinalAmount`; fetch the item once; set `Status = "sold"`,
`BuyerID`, `CurrentPrice = EndPrice = finalAmount`, `UpdatedAt`; persist with
a single `Update`, no retry loop. -/
def handleBidWon (db : ItemsTable) (now : GoTime) (event : Event) : HandlerOut :=
  match event.Payload.lookupStr "ItemID" with
  | none => ⟨db, [], .error "malformed payload - itemId missing or invalid"⟩
  | some itemID =>
    if itemID == "" then ⟨db, [], .error "malformed payload - itemId missing or invalid"⟩
    else
      match event.Payload.lookupStr "BuyerID" with
      | none => ⟨db, [], .error "malformed payload - buyerId missing or invalid"⟩
      | some buyerID =>
        if buyerID == "" then ⟨db, [], .error "malformed payload - buyerId missing or invalid"⟩
        else
          match event.Payload.lookupStr "FinalAmount" with
          | none => ⟨db, [], .error "malformed payload - finalAmount missing or invalid"⟩
          | some finalAmount =>
            if finalAmount == "" then
              ⟨db, [], .error "malformed payload - finalAmount missing or invalid"⟩
            else
              match PgRepository.GetItem db itemID with
              | .error e =>
                  ⟨db, [.getItem itemID], .error ("failed to get item: " ++ e)⟩
              | .ok item0 =>
                match decimal.NewFromString finalAmount with
                | none =>
                    ⟨db, [.getItem itemID],
                     .error "malformed payload - invalid finalAmount format"⟩
                | some finalPrice =>
                  let item1 :=
                    { item0 with
                      Status := "sold"
                      BuyerID := some buyerID
                      CurrentPrice := finalPrice
                      EndPrice := some finalPrice
                      UpdatedAt := now }
                  let upd := PgRepository.Update db item1 now
                  match upd.2 with
                  | some e =>
                      ⟨upd.1, [.getItem itemID, .update item1.ID],
                       .error ("failed to update item: " ++ e)⟩
                  | none => ⟨upd.1, [.getItem itemID, .update item1.ID], .ok ()⟩

/-- BidEventHandler.HandleEvent (security_headers.go lines 74-91): dispatch on
the event name; unknown names are logged and return `nil` without touching
the repository. -/
def HandleEvent (db : ItemsTable) (now : GoTime) (event : Event) : HandlerOut :=
  if event.Event == "bid.placed" then handleBidPlaced db now event
  else if event.Event == "bid.won" then handleBidWon db now event
  else ⟨db, [], .ok ()⟩

end BidEventHandler

/-- A broker settlement call issued for a delivery: Go `msg.Ack(multiple)` or
`msg.Nack(multiple, requeue)` (src/infra/rabbitmq/consumer.go). -/
inductive SettleAction where
  | ack : Bool → SettleAction
  | nack : Bool → Bool → SettleAction
deriving DecidableEq, Repr

/-- The 30-second processing timeout handed to the handler's context
(src/infra/rabbitmq/consumer.go line 242). -/
def processTimeout : GoDuration := 30 * 1000000000

/-- Outcome of Consumer.handleMessage for one delivery. -/
structure MessageOut where
  db : ItemsTable
  ops : List RepoOp
  handlerInvoked : Bool
  settles : List SettleAction

/-- Consumer.handleMessage (src/infra/rabbitmq/consumer.go lines 215-268).
`decoded` is the outcome of `json.Unmarshal(msg.Body, &event)` (external
stdlib): `none` when the body does not decode into the Event envelope.
Decode failure: `msg.Nack(false, false)` and return, handler never invoked.
Handler error (run under the `processTimeout`-bounded context): `msg.Nack
(false, false)`. Handler success: `msg.Ack(false)`; `ackFails` is the
broker-side result of that call, and both branches only log, issuing no
further settlement. -/
def handleMessage (db : ItemsTable) (now : GoTime) (decoded : Option Event)
    (ackFails : Bool) : MessageOut :=
  match decoded with
  | none => ⟨db, [], false, [.nack false false]⟩
  | some event =>
    let out := BidEventHandler.HandleEvent db now event
    match out.res with
    | .error _ => ⟨out.db, out.ops, true, [.nack false false]⟩
    | .ok _ =>
      if ackFails then ⟨out.db, out.ops, true, [.ack false]⟩
      else ⟨out.db, out.ops, true, [.ack false]⟩

/-- The repository interface the bid handler consumes (spec section 6),
as a per-attempt behavior: `GetItemAt n` is what `repository.GetItem`
returns on attempt `n`, `UpdateAt n` what `repository.Update` returns
(`none` = success, `some e` = an error with message `e`). -/
structure RepoBehavior where
  GetItemAt : Nat → Except GoError Item
  UpdateAt : Nat → Option GoError

/-- One executed attempt of the handleBidPlaced retry loop: its 1-based
number, the item the fresh read returned, the item handed to `Update`,
and the `time.Sleep` taken after it in milliseconds (`none` when the
attempt did not back off). -/
structure Attempt where
  n : Nat
  read : Item
  written : Item
  sleptMs : Option Nat
deriving DecidableEq, Repr

/-- The handleBidPlaced retry loop (security_headers.go lines 128-182) run
against an abstract repository behavior, recording each executed attempt:
fresh `GetItem` per iteration, amount parse, `bidPlacedApply`, `Update`;
on an "optimistic lock failed" error with attempts left, sleep
`10*attempt` ms and continue; any other update error returns immediately. -/
def bidPlacedAttemptsLoop (repo : RepoBehavior) (amountStr : String)
    (bidTime now : GoTime) : Nat → Nat → List Attempt × Except GoError Unit
  | 0, _ => ([], .error "unexpected error: max retries reached")
  | fuel + 1, attempt =>
    match repo.GetItemAt attempt with
    | .error e => ([], .error ("failed to get item: " ++ e))
    | .ok item0 =>
      match decimal.NewFromString amountStr with
      | none => ([], .error "malformed payload - invalid amount format")
      | some price =>
        let written := bidPlacedApply item0 price bidTime now
        match repo.UpdateAt attempt with
        | none => ([⟨attempt, item0, written, none⟩], .ok ())
        | some e =>
          if stringsContains e "optimistic lock failed" then
            if attempt < maxRetries then
              let rest := bidPlacedAttemptsLoop repo amountStr bidTime now fuel (attempt + 1)
              (⟨attempt, item0, written, some (10 * attempt)⟩ :: rest.1, rest.2)
            else
              ([⟨attempt, item0, written, none⟩],
               .error "failed to update item after 3 retries due to concurrent modifications")
          else ([⟨attempt, item0, written, none⟩], .error ("failed to update item: " ++ e))

/-- The read-modify-write cycle of handleBidPlaced over the repository
interface, started as in the source at attempt 1 with `maxRetries`
iterations available. -/
def bidPlacedAttempts (repo : RepoBehavior) (amountStr : String)
    (bidTime now : GoTime) : List Attempt × Except GoError Unit :=
  bidPlacedAttemptsLoop repo amountStr bidTime now maxRetries 1

/-- Modelled from the spec: the bounded dispatcher of `Consumer.Consume`
with its `WorkerPoolSize` semaphore is missing from src/ — the
`consumer.go` under src/ is a stale revision whose `ConsumerConfig` lacks
the `WorkerPoolSize` field that its caller `cmd/worker/main.go` sets, and
whose intake loop calls `handleMessage` synchronously. The repository's
README documents the real dispatcher: a buffered channel of capacity
`workerPoolSize` acquired before each delivery is handed to a goroutine
and released unconditionally when the handler finishes. The state tracks
deliveries waiting in the stream and handler invocations in flight. -/
structure DispatchState where
  pending : Nat
  inFlight : Nat
deriving DecidableEq, Repr

/-- Modelled from the spec: one transition of the dispatcher. `arrive`
delivers a message into the stream; `dispatch` moves a delivery to a
worker goroutine only when a semaphore slot is free (the intake loop
blocks otherwise); `complete` finishes a handler invocation — with either
outcome — and releases its slot unconditionally. -/
inductive DispatchStep (poolSize : Nat) : DispatchState → DispatchState → Prop where
  | arrive (s : DispatchState) : DispatchStep poolSize s ⟨s.pending + 1, s.inFlight⟩
  | dispatch (s : DispatchState) : 0 < s.pending → s.inFlight < poolSize →
      DispatchStep poolSize s ⟨s.pending - 1, s.inFlight + 1⟩
  | complete (s : DispatchState) (success : Bool) : 0 < s.inFlight →
      DispatchStep poolSize s ⟨s.pending, s.inFlight - 1⟩

/-- Modelled from the spec: dispatcher states reachable from startup
(no pending deliveries, no in-flight handlers). -/
inductive DispatchReachable (poolSize : Nat) : DispatchState → Prop where
  | init : DispatchReachable poolSize ⟨0, 0⟩
  | step {s t : DispatchState} : DispatchReachable poolSize s →
      DispatchStep poolSize s t → DispatchReachable poolSize t

example : decimal.NewFromString "150.00" = some ⟨15000, -2⟩ := by decide

example : daysFromCivil 2024 1 20 = 19742 := by decide

example : timeParseRFC3339 "2024-01-20T10:00:00Z" = some 1705744800000000000 := by
  decide

/-! ## Concrete fixtures used by closed theorems and witnesses -/

/-- An auction item as in the spec's worked example: `endDate =
2024-01-20T10:00:00Z`, `extensionThresholdMinutes = 10`. -/
def exItem : Item :=
  { ID := "I1", EndDate := 1705744800000000000, ExtensionThresholdMinutes := some 10 }

/-- A one-row items table holding `exItem`. -/
def exDb : ItemsTable := fun k => if k == "I1" then some exItem else none

/-- The spec's example `bid.placed` event, with the wire-format payload keys
`itemId`, `amount`, `timestamp` exactly as the spec writes them. -/
def evSpecExample : Event :=
  { Event := "bid.placed", Version := "v1", Timestamp := 0,
    Payload := [("itemId", .str "I1"), ("amount", .str "150.00"),
                ("timestamp", .str "2024-01-20T09:57:00Z")],
    TraceID := "", CorrelationID := "" }

/-- The same example with the payload keys the handler actually looks up:
`ItemID`, `Amount`, `Timestamp`. -/
def evCodeExample : Event :=
  { Event := "bid.placed", Version := "v1", Timestamp := 0,
    Payload := [("ItemID", .str "I1"), ("Amount", .str "150.00"),
                ("Timestamp", .str "2024-01-20T09:57:00Z")],
    TraceID := "", CorrelationID := "" }

/-- A `bid.won` event with a well-formed payload. -/
def evWonExample : Event :=
  { Event := "bid.won", Version := "v1", Timestamp := 0,
    Payload := [("ItemID", .str "I1"), ("BuyerID", .str "B1"),
                ("FinalAmount", .str "200.00")],
    TraceID := "", CorrelationID := "" }

/-! ## Helper lemmas -/

theorem shouldExtend_iff (i : Item) (bt : GoTime) :
    i.ShouldExtendForBid bt = true ↔
      0 < i.EndDate - bt ∧ i.EndDate - bt ≤ i.GetExtensionThreshold := by
  unfold Item.ShouldExtendForBid
  simp only [Bool.and_eq_true, decide_eq_true_eq, gt_iff_lt]

theorem bidPlacedApply_ID (i : Item) (p : Decimal) (bt now : GoTime) :
    (bidPlacedApply i p bt now).ID = i.ID := by
  simp only [bidPlacedApply]
  split <;> rfl

theorem bidPlacedApply_EndDate (i : Item) (p : Decimal) (bt now : GoTime) :
    (bidPlacedApply i p bt now).EndDate =
      if 0 < i.EndDate - bt ∧ i.EndDate - bt ≤ i.GetExtensionThreshold then
        i.EndDate + i.GetExtensionDuration
      else i.EndDate := by
  have hE : ({ i with CurrentPrice := p } : Item).EndDate = i.EndDate := rfl
  have hT : ({ i with CurrentPrice := p } : Item).GetExtensionThreshold =
      i.GetExtensionThreshold := rfl
  simp only [bidPlacedApply]
  by_cases hc : ({ i with CurrentPrice := p } : Item).ShouldExtendForBid bt = true
  · have hc' := (shouldExtend_iff _ _).mp hc
    rw [hE, hT] at hc'
    rw [if_pos hc, if_pos hc']
    rfl
  · have hc' : ¬(0 < i.EndDate - bt ∧ i.EndDate - bt ≤ i.GetExtensionThreshold) := by
      intro hp
      exact hc ((shouldExtend_iff _ _).mpr (by rw [hE, hT]; exact hp))
    rw [if_neg hc, if_neg hc']

theorem bidPlacedApply_CurrentPrice (i : Item) (p : Decimal) (bt now : GoTime) :
    (bidPlacedApply i p bt now).CurrentPrice = p := by
  simp only [bidPlacedApply]
  split <;> rfl

/-! ## Claim theorems, batch 1 -/

/-- C10: `GetExtensionThreshold` and `GetExtensionDuration` return the defaults
(10 and 5 minutes) not only when the override field is `none` but also when it
holds a zero or negative value — a non-positive override is silently replaced
by the default rather than used or rejected. -/
theorem extension_overrides_nonpositive_use_defaults (i : Item) (m : Int) :
    ((i.ExtensionThresholdMinutes = none ∨ (i.ExtensionThresholdMinutes = some m ∧ m ≤ 0)) →
      i.GetExtensionThreshold = DefaultExtensionThresholdMinutes * timeMinute) ∧
    ((i.ExtensionDurationMinutes = none ∨ (i.ExtensionDurationMinutes = some m ∧ m ≤ 0)) →
      i.GetExtensionDuration = DefaultExtensionDurationMinutes * timeMinute) := by
  constructor
  · rintro (h | ⟨h, hm⟩)
    · simp [Item.GetExtensionThreshold, h]
    · simp [Item.GetExtensionThreshold, h, show ¬(m > 0) by omega]
  · rintro (h | ⟨h, hm⟩)
    · simp [Item.GetExtensionDuration, h]
    · simp [Item.GetExtensionDuration, h, show ¬(m > 0) by omega]

/-- Witness for C10 at explicit overrides `-3` (threshold) and `0` (duration). -/
theorem extension_overrides_nonpositive_use_defaults_witness :
    ({ ID := "I1", ExtensionThresholdMinutes := some (-3),
       ExtensionDurationMinutes := some 0 : Item }).GetExtensionThreshold =
        DefaultExtensionThresholdMinutes * timeMinute ∧
    ({ ID := "I1", ExtensionThresholdMinutes := some (-3),
       ExtensionDurationMinutes := some 0 : Item }).GetExtensionDuration =
        DefaultExtensionDurationMinutes * timeMinute :=
  ⟨(extension_overrides_nonpositive_use_defaults _ (-3)).1 (Or.inr ⟨rfl, by decide⟩),
   (extension_overrides_nonpositive_use_defaults _ 0).2 (Or.inr ⟨rfl, by decide⟩)⟩

/-- An items row as a concurrent writer last stored it (version 4). -/
def staleDbRow : Item := { ID := "I1", Name := "listed", Version := 4 }

/-- A handler's in-memory copy written back after the stored row moved on:
its version (1) no longer matches the stored version (4). -/
def staleWrite : Item := { ID := "I1", Name := "stale-write", Version := 1 }

/-- The table holding the current row. -/
def staleDb : ItemsTable := fun k => if k == "I1" then some staleDbRow else none

/-- C1 (code bug): `PgRepository.Update` never reports an optimistic-concurrency
conflict and never increments `version`. A write whose in-memory copy carries a
stale version (1, against stored 4) succeeds, silently overwrites the row, and
leaves `version` unchanged; and for every table, item and clock the update
error is `none`, so no distinguishable conflict error kind exists for the
caller to retry on. -/
theorem pgUpdate_no_conflict_detection :
    staleWrite.Version ≠ staleDbRow.Version ∧
    (PgRepository.Update staleDb staleWrite 0).2 = none ∧
    ((PgRepository.Update staleDb staleWrite 0).1 "I1").map Item.Version = some staleDbRow.Version ∧
    ((PgRepository.Update staleDb staleWrite 0).1 "I1").map Item.Name = some "stale-write" ∧
    (∀ (db : ItemsTable) (item : Item) (now : GoTime),
      (PgRepository.Update db item now).2 = none) :=
  ⟨by decide, rfl, rfl, rfl, fun _ _ _ => rfl⟩

/-- Witness for C1's closed scenario: the stale write reports no error and the
stored version is still 4. -/
theorem pgUpdate_no_conflict_detection_witness :
    (PgRepository.Update staleDb staleWrite 0).2 = none ∧
    ((PgRepository.Update staleDb staleWrite 0).1 "I1").map Item.Version = some 4 :=
  ⟨pgUpdate_no_conflict_detection.2.1, pgUpdate_no_conflict_detection.2.2.1⟩

/-- C3 (code bug): on a valid `bid.won` payload the handler fetches the item
once, runs a single `Update` with `status = "sold"`, `currentPrice = endPrice
= finalAmount` — but the stored row's `buyerId` stays `none`, because the
UPDATE statement's column list omits `buyer_id`, so the stored item does not
reflect the buyer the handler set in memory. -/
theorem bidWon_persists_sale_but_drops_buyer :
    (BidEventHandler.handleBidWon exDb 0 evWonExample).res = .ok () ∧
    (BidEventHandler.handleBidWon exDb 0 evWonExample).ops =
      [.getItem "I1", .update "I1"] ∧
    ((BidEventHandler.handleBidWon exDb 0 evWonExample).db "I1").map Item.Status = some "sold" ∧
    ((BidEventHandler.handleBidWon exDb 0 evWonExample).db "I1").map Item.CurrentPrice =
      some ⟨20000, -2⟩ ∧
    ((BidEventHandler.handleBidWon exDb 0 evWonExample).db "I1").map Item.EndPrice =
      some (some ⟨20000, -2⟩) ∧
    ((BidEventHandler.handleBidWon exDb 0 evWonExample).db "I1").map Item.BuyerID = some none :=
  ⟨rfl, rfl, rfl, rfl, rfl, rfl⟩

/-- C7 counterexample: the spec's example event, with its wire-format payload
keys `itemId`, `amount`, `timestamp`, is treated as a malformed payload (the
handler looks up `ItemID`), the repository is never touched, and the stored
item is unchanged — processing does not succeed. -/
theorem spec_example_payload_rejected :
    (BidEventHandler.handleBidPlaced exDb 0 evSpecExample).res =
      .error "malformed payload - itemId missing or invalid" ∧
    (BidEventHandler.handleBidPlaced exDb 0 evSpecExample).ops = [] ∧
    (BidEventHandler.handleBidPlaced exDb 0 evSpecExample).db "I1" = some exItem :=
  ⟨rfl, rfl, rfl⟩

/-- C7 as amended: with the payload keys the handler actually reads (`ItemID`,
`Amount`, `Timestamp`), the example succeeds and yields `currentPrice =
150.00` and `endDate = 2024-01-20T10:05:00Z` — the original end date plus the
default 5-minute extension. -/
theorem example_payload_capitalized_keys_extends :
    (BidEventHandler.handleBidPlaced exDb 0 evCodeExample).res = .ok () ∧
    ((BidEventHandler.handleBidPlaced exDb 0 evCodeExample).db "I1").map Item.CurrentPrice =
      some ⟨15000, -2⟩ ∧
    ((BidEventHandler.handleBidPlaced exDb 0 evCodeExample).db "I1").map Item.EndDate =
      some 1705745100000000000 :=
  ⟨rfl, rfl, rfl⟩

/-- C5: a delivery whose body fails to decode into the Event envelope is
rejected without requeue and the function returns: the domain handler is
never invoked, no repository call is made, and the items table is
untouched. -/
theorem handleMessage_rejects_undecodable_without_requeue
    (db : ItemsTable) (now : GoTime) (ackFails : Bool) :
    handleMessage db now none ackFails = ⟨db, [], false, [.nack false false]⟩ := rfl

/-- C6: every delivery is settled by exactly one broker call, which is either
an acknowledge or a reject without requeue — acknowledged exactly when
decoding succeeded and the handler returned success, rejected when decoding
failed or the handler erred — and a broker-side acknowledge failure changes
nothing (no further settlement attempt is made). -/
theorem handleMessage_settles_exactly_once
    (db : ItemsTable) (now : GoTime) (decoded : Option Event) (ackFails : Bool) :
    (handleMessage db now decoded ackFails).settles.length = 1 ∧
    (∀ s ∈ (handleMessage db now decoded ackFails).settles,
      s = .ack false ∨ s = .nack false false) ∧
    ((handleMessage db now decoded ackFails).settles = [.ack false] ↔
      ∃ ev, decoded = some ev ∧ (BidEventHandler.HandleEvent db now ev).res = .ok ()) ∧
    ((handleMessage db now decoded ackFails).settles = [.nack false false] ↔
      decoded = none ∨
        ∃ ev e, decoded = some ev ∧ (BidEventHandler.HandleEvent db now ev).res = .error e) ∧
    processTimeout = 30 * 1000000000 ∧
    handleMessage db now decoded true = handleMessage db now decoded false := by
  cases decoded with
  | none => simp [handleMessage, processTimeout]
  | some ev =>
    cases h : (BidEventHandler.HandleEvent db now ev).res with
    | error e =>
        cases ackFails <;>
          simp [handleMessage, processTimeout, h]
    | ok u =>
        cases u
        cases ackFails <;>
          simp [handleMessage, processTimeout, h]

/-- Witness for C6 at a concrete undecodable delivery: the settlement is the
single reject-without-requeue. -/
theorem handleMessage_settles_exactly_once_witness :
    (handleMessage exDb 0 none false).settles = [SettleAction.nack false false] :=
  (handleMessage_settles_exactly_once exDb 0 none false).2.2.2.1.mpr (Or.inl rfl)

/-- C8: an event whose name is neither "bid.placed" nor "bid.won" is a no-op
success for the bid domain handler — no repository call, items table
unchanged, `nil` returned — so the delivery is acknowledged, not rejected. -/
theorem handleEvent_unknown_name_noop (db : ItemsTable) (now : GoTime) (ev : Event)
    (h1 : ev.Event ≠ "bid.placed") (h2 : ev.Event ≠ "bid.won") :
    BidEventHandler.HandleEvent db now ev = ⟨db, [], .ok ()⟩ ∧
    (handleMessage db now (some ev) false).settles = [.ack false] := by
  have he : BidEventHandler.HandleEvent db now ev = ⟨db, [], .ok ()⟩ := by
    simp [BidEventHandler.HandleEvent, h1, h2]
  refine ⟨he, ?_⟩
  simp [handleMessage, he]

/-- Witness for C8 at the concrete event name "bid.cancelled". -/
theorem handleEvent_unknown_name_noop_witness :
    BidEventHandler.HandleEvent exDb 0
      { Event := "bid.cancelled", Version := "v1", Timestamp := 0, Payload := [],
        TraceID := "", CorrelationID := "" } = ⟨exDb, [], .ok ()⟩ ∧
    (handleMessage exDb 0 (some
      { Event := "bid.cancelled", Version := "v1", Timestamp := 0, Payload := [],
        TraceID := "", CorrelationID := "" }) false).settles = [.ack false] :=
  handleEvent_unknown_name_noop exDb 0 _ (by decide) (by decide)

/-- C9 (modelled from the spec, see `DispatchState`): in every dispatcher
state reachable from startup, the number of concurrently executing handler
invocations never exceeds `poolSize`; and completion — with either outcome —
always releases a slot. -/
theorem dispatcher_inflight_bounded (poolSize : Nat) :
    (∀ s, DispatchReachable poolSize s → s.inFlight ≤ poolSize) ∧
    (∀ (s : DispatchState) (success : Bool), 0 < s.inFlight →
      DispatchStep poolSize s ⟨s.pending, s.inFlight - 1⟩) := by
  constructor
  · intro s h
    induction h with
    | init => exact Nat.zero_le _
    | step hr hstep ih =>
        cases hstep with
        | arrive => exact ih
        | dispatch hp hf => exact hf
        | complete _ hf => exact Nat.le_trans (Nat.sub_le _ _) ih
  · exact fun s success h => DispatchStep.complete s success h

/-- Witness for C9: a concrete reachable state with one in-flight handler
under the worker's configured pool size of 20. -/
theorem dispatcher_inflight_bounded_witness :
    (⟨0, 1⟩ : DispatchState).inFlight ≤ 20 :=
  (dispatcher_inflight_bounded 20).1 ⟨0, 1⟩
    (.step (.step .init (.arrive ⟨0, 0⟩)) (.dispatch ⟨1, 0⟩ (by decide) (by decide)))

/-- Against the Postgres repository (whose `Update` cannot fail) an iteration
of the bid.placed retry loop that finds the item and parses the amount
completes in that single attempt, writing `bidPlacedApply` of the fresh
read. -/
theorem bidPlacedLoop_pg_step (a : String) (bt now : GoTime) (id : String)
    (fuel attempt : Nat) (db : ItemsTable) (ops : List RepoOp)
    (item : Item) (price : Decimal)
    (hdb : db id = some item) (hp : decimal.NewFromString a = some price) :
    BidEventHandler.bidPlacedLoop a bt now id (fuel + 1) attempt db ops =
      ⟨(PgRepository.Update db (bidPlacedApply item price bt now) now).1,
       ops ++ [.getItem id, .update (bidPlacedApply item price bt now).ID], .ok ()⟩ := by
  simp [BidEventHandler.bidPlacedLoop, PgRepository.GetItem, hdb, hp, PgRepository.Update]

/-- C2: for every valid bid.placed event processed against a stored item, with
remaining time measured from the item's current `endDate` to the bid's
timestamp, and the threshold the item's override-or-default: when the
remaining time is positive and within the threshold, the stored `endDate`
after processing equals the pre-update `endDate` plus the extension duration
(not "now" plus the duration); otherwise it is unchanged. -/
theorem bidPlaced_extension_rule (db : ItemsTable) (now : GoTime) (ev : Event)
    (itemID amountStr : String) (item : Item) (price : Decimal)
    (hID : ev.Payload.lookupStr "ItemID" = some itemID) (hIDne : itemID ≠ "")
    (hAm : ev.Payload.lookupStr "Amount" = some amountStr) (hAmne : amountStr ≠ "")
    (hParse : decimal.NewFromString amountStr = some price)
    (hDb : db itemID = some item) :
    (BidEventHandler.handleBidPlaced db now ev).res = .ok () ∧
    ∃ item', (BidEventHandler.handleBidPlaced db now ev).db itemID = some item' ∧
      ((0 < item.EndDate - bidTimeOf ev ∧
          item.EndDate - bidTimeOf ev ≤ item.GetExtensionThreshold) →
        item'.EndDate = item.EndDate + item.GetExtensionDuration) ∧
      (¬(0 < item.EndDate - bidTimeOf ev ∧
          item.EndDate - bidTimeOf ev ≤ item.GetExtensionThreshold) →
        item'.EndDate = item.EndDate) := by
  have hmain : BidEventHandler.handleBidPlaced db now ev =
      ⟨(PgRepository.Update db (bidPlacedApply item price (bidTimeOf ev) now) now).1,
       [RepoOp.getItem itemID, RepoOp.update (bidPlacedApply item price (bidTimeOf ev) now).ID],
       .ok ()⟩ := by
    unfold BidEventHandler.handleBidPlaced
    rw [hID]
    dsimp only
    rw [if_neg (by simpa using hIDne)]
    rw [hAm]
    dsimp only
    rw [if_neg (by simpa using hAmne)]
    rw [show maxRetries = 2 + 1 from rfl]
    exact bidPlacedLoop_pg_step amountStr (bidTimeOf ev) now itemID 2 1 db [] item price hDb hParse
  rw [hmain]
  refine ⟨rfl, ?_⟩
  have hwid : (bidPlacedApply item price (bidTimeOf ev) now).ID = item.ID :=
    bidPlacedApply_ID item price (bidTimeOf ev) now
  have hdb' : (PgRepository.Update db (bidPlacedApply item price (bidTimeOf ev) now) now).1 itemID =
      some (PgRepository.updateColumns item (bidPlacedApply item price (bidTimeOf ev) now) now) := by
    simp [PgRepository.Update, hDb, hwid]
  refine ⟨PgRepository.updateColumns item (bidPlacedApply item price (bidTimeOf ev) now) now,
          hdb', ?_, ?_⟩
  · intro hc
    have hEnd : (PgRepository.updateColumns item
        (bidPlacedApply item price (bidTimeOf ev) now) now).EndDate =
        (bidPlacedApply item price (bidTimeOf ev) now).EndDate := rfl
    rw [hEnd, bidPlacedApply_EndDate, if_pos hc]
  · intro hc
    have hEnd : (PgRepository.updateColumns item
        (bidPlacedApply item price (bidTimeOf ev) now) now).EndDate =
        (bidPlacedApply item price (bidTimeOf ev) now).EndDate := rfl
    rw [hEnd, bidPlacedApply_EndDate, if_neg hc]

/-- Witness for C2 at the concrete in-window example: the end date is
extended by the default 5 minutes from the original end date. -/
theorem bidPlaced_extension_rule_witness :
    (BidEventHandler.handleBidPlaced exDb 0 evCodeExample).res = .ok () ∧
    ∃ item', (BidEventHandler.handleBidPlaced exDb 0 evCodeExample).db "I1" = some item' ∧
      item'.EndDate = exItem.EndDate + exItem.GetExtensionDuration := by
  obtain ⟨h1, item', h2, h3, -⟩ :=
    bidPlaced_extension_rule exDb 0 evCodeExample "I1" "150.00" exItem ⟨15000, -2⟩
      rfl (by decide) rfl (by decide) (by decide) rfl
  exact ⟨h1, item', h2, h3 (by decide)⟩

/-- The retry loop executes at most `fuel` attempts. -/
theorem bidPlacedAttemptsLoop_length_le (repo : RepoBehavior) (a : String)
    (bt now : GoTime) : ∀ (fuel attempt : Nat),
    (bidPlacedAttemptsLoop repo a bt now fuel attempt).1.length ≤ fuel := by
  intro fuel
  induction fuel with
  | zero => intro attempt; simp [bidPlacedAttemptsLoop]
  | succ n ih =>
    intro attempt
    cases hg : repo.GetItemAt attempt with
    | error e => simp [bidPlacedAttemptsLoop, hg]
    | ok item0 =>
      cases hp : decimal.NewFromString a with
      | none => simp [bidPlacedAttemptsLoop, hg, hp]
      | some price =>
        cases hu : repo.UpdateAt attempt with
        | none => simp [bidPlacedAttemptsLoop, hg, hp, hu]
        | some e =>
          by_cases hc : stringsContains e "optimistic lock failed" = true
          · by_cases hlt : attempt < maxRetries
            · simpa [bidPlacedAttemptsLoop, hg, hp, hu, hc, hlt] using ih (attempt + 1)
            · simp [bidPlacedAttemptsLoop, hg, hp, hu, hc, hlt]
          · simp [bidPlacedAttemptsLoop, hg, hp, hu, hc]

/-- Executed attempts are numbered consecutively starting at the loop's
starting attempt. -/
theorem bidPlacedAttemptsLoop_map_n (repo : RepoBehavior) (a : String)
    (bt now : GoTime) : ∀ (fuel attempt : Nat),
    (bidPlacedAttemptsLoop repo a bt now fuel attempt).1.map Attempt.n =
      List.range' attempt (bidPlacedAttemptsLoop repo a bt now fuel attempt).1.length := by
  intro fuel
  induction fuel with
  | zero => intro attempt; simp [bidPlacedAttemptsLoop]
  | succ n ih =>
    intro attempt
    cases hg : repo.GetItemAt attempt with
    | error e => simp [bidPlacedAttemptsLoop, hg]
    | ok item0 =>
      cases hp : decimal.NewFromString a with
      | none => simp [bidPlacedAttemptsLoop, hg, hp]
      | some price =>
        cases hu : repo.UpdateAt attempt with
        | none => simp [bidPlacedAttemptsLoop, hg, hp, hu, List.range']
        | some e =>
          by_cases hc : stringsContains e "optimistic lock failed" = true
          · by_cases hlt : attempt < maxRetries
            · simpa [bidPlacedAttemptsLoop, hg, hp, hu, hc, hlt, List.range'_succ]
                using ih (attempt + 1)
            · simp [bidPlacedAttemptsLoop, hg, hp, hu, hc, hlt, List.range']
          · simp [bidPlacedAttemptsLoop, hg, hp, hu, hc, List.range']

/-- Every executed attempt used the item returned by that attempt's own fresh
`GetItem` call, and wrote exactly `bidPlacedApply` of that fresh read. -/
theorem bidPlacedAttemptsLoop_fresh (repo : RepoBehavior) (a : String)
    (bt now : GoTime) : ∀ (fuel attempt : Nat),
    ∀ rec ∈ (bidPlacedAttemptsLoop repo a bt now fuel attempt).1,
      repo.GetItemAt rec.n = .ok rec.read ∧
      ∃ p, decimal.NewFromString a = some p ∧ rec.written = bidPlacedApply rec.read p bt now := by
  intro fuel
  induction fuel with
  | zero => intro attempt rec h; simp [bidPlacedAttemptsLoop] at h
  | succ n ih =>
    intro attempt rec hrec
    cases hg : repo.GetItemAt attempt with
    | error e => simp [bidPlacedAttemptsLoop, hg] at hrec
    | ok item0 =>
      cases hp : decimal.NewFromString a with
      | none => simp [bidPlacedAttemptsLoop, hg, hp] at hrec
      | some price =>
        cases hu : repo.UpdateAt attempt with
        | none =>
          simp [bidPlacedAttemptsLoop, hg, hp, hu] at hrec
          subst hrec
          exact ⟨hg, price, rfl, rfl⟩
        | some e =>
          by_cases hc : stringsContains e "optimistic lock failed" = true
          · by_cases hlt : attempt < maxRetries
            · simp [bidPlacedAttemptsLoop, hg, hp, hu, hc, hlt] at hrec
              rcases hrec with hrec | hrec
              · subst hrec
                exact ⟨hg, price, rfl, rfl⟩
              · have hih := ih (attempt + 1) rec hrec
                rwa [hp] at hih
            · simp [bidPlacedAttemptsLoop, hg, hp, hu, hc, hlt] at hrec
              subst hrec
              exact ⟨hg, price, rfl, rfl⟩
          · simp [bidPlacedAttemptsLoop, hg, hp, hu, hc] at hrec
            subst hrec
            exact ⟨hg, price, rfl, rfl⟩

/-- An attempt backed off (`sleptMs ≠ none`) only because its `Update` failed
with an error containing "optimistic lock failed" while attempts remained,
and the recorded sleep is `10 * attempt` milliseconds. -/
theorem bidPlacedAttemptsLoop_slept (repo : RepoBehavior) (a : String)
    (bt now : GoTime) : ∀ (fuel attempt : Nat),
    ∀ rec ∈ (bidPlacedAttemptsLoop repo a bt now fuel attempt).1,
      rec.sleptMs = none ∨
      (∃ e, repo.UpdateAt rec.n = some e ∧
        stringsContains e "optimistic lock failed" = true ∧
        rec.sleptMs = some (10 * rec.n) ∧ rec.n < maxRetries) := by
  intro fuel
  induction fuel with
  | zero => intro attempt rec h; simp [bidPlacedAttemptsLoop] at h
  | succ n ih =>
    intro attempt rec hrec
    cases hg : repo.GetItemAt attempt with
    | error e => simp [bidPlacedAttemptsLoop, hg] at hrec
    | ok item0 =>
      cases hp : decimal.NewFromString a with
      | none => simp [bidPlacedAttemptsLoop, hg, hp] at hrec
      | some price =>
        cases hu : repo.UpdateAt attempt with
        | none =>
          simp [bidPlacedAttemptsLoop, hg, hp, hu] at hrec
          subst hrec
          exact Or.inl rfl
        | some e =>
          by_cases hc : stringsContains e "optimistic lock failed" = true
          · by_cases hlt : attempt < maxRetries
            · simp [bidPlacedAttemptsLoop, hg, hp, hu, hc, hlt] at hrec
              rcases hrec with hrec | hrec
              · subst hrec
                exact Or.inr ⟨e, hu, hc, rfl, hlt⟩
              · exact ih (attempt + 1) rec hrec
            · simp [bidPlacedAttemptsLoop, hg, hp, hu, hc, hlt] at hrec
              subst hrec
              exact Or.inl rfl
          · simp [bidPlacedAttemptsLoop, hg, hp, hu, hc] at hrec
            subst hrec
            exact Or.inl rfl

/-- Every attempt that was followed by a further attempt backed off first:
only the final executed attempt has no recorded sleep. -/
theorem bidPlacedAttemptsLoop_nonfinal_slept (repo : RepoBehavior) (a : String)
    (bt now : GoTime) : ∀ (fuel attempt k : Nat)
    (h : k + 1 < (bidPlacedAttemptsLoop repo a bt now fuel attempt).1.length),
    ((bidPlacedAttemptsLoop repo a bt now fuel attempt).1.get
      ⟨k, Nat.lt_of_succ_lt h⟩).sleptMs ≠ none := by
  intro fuel
  induction fuel with
  | zero =>
    intro attempt k h
    simp [bidPlacedAttemptsLoop] at h
  | succ n ih =>
    intro attempt k h
    cases hg : repo.GetItemAt attempt with
    | error e => simp [bidPlacedAttemptsLoop, hg] at h
    | ok item0 =>
      cases hp : decimal.NewFromString a with
      | none => simp [bidPlacedAttemptsLoop, hg, hp] at h
      | some price =>
        cases hu : repo.UpdateAt attempt with
        | none =>
          rw [show (bidPlacedAttemptsLoop repo a bt now (n + 1) attempt).1 =
              [⟨attempt, item0, bidPlacedApply item0 price bt now, none⟩] by
            simp [bidPlacedAttemptsLoop, hg, hp, hu]] at h
          simp at h
        | some e =>
          by_cases hc : stringsContains e "optimistic lock failed" = true
          · by_cases hlt : attempt < maxRetries
            · have hlist : (bidPlacedAttemptsLoop repo a bt now (n + 1) attempt).1 =
                  ⟨attempt, item0, bidPlacedApply item0 price bt now, some (10 * attempt)⟩ ::
                    (bidPlacedAttemptsLoop repo a bt now n (attempt + 1)).1 := by
                simp [bidPlacedAttemptsLoop, hg, hp, hu, hc, hlt]
              revert h
              rw [hlist]
              intro h
              cases k with
              | zero => simp
              | succ j =>
                have hj : j + 1 < (bidPlacedAttemptsLoop repo a bt now n (attempt + 1)).1.length := by
                  simpa using h
                simpa using ih (attempt + 1) j hj
            · rw [show (bidPlacedAttemptsLoop repo a bt now (n + 1) attempt).1 =
                  [⟨attempt, item0, bidPlacedApply item0 price bt now, none⟩] by
                simp [bidPlacedAttemptsLoop, hg, hp, hu, hc, hlt]] at h
              simp at h
          · rw [show (bidPlacedAttemptsLoop repo a bt now (n + 1) attempt).1 =
                [⟨attempt, item0, bidPlacedApply item0 price bt now, none⟩] by
              simp [bidPlacedAttemptsLoop, hg, hp, hu, hc]] at h
            simp at h

/-- A persistence error whose message does not contain "optimistic lock
failed" at any executed attempt makes the loop return that error wrapped as
"failed to update item: ..." — with no further attempt. -/
theorem bidPlacedAttemptsLoop_other_error (repo : RepoBehavior) (a : String)
    (bt now : GoTime) : ∀ (fuel attempt : Nat),
    ∀ rec ∈ (bidPlacedAttemptsLoop repo a bt now fuel attempt).1,
      ∀ e, repo.UpdateAt rec.n = some e →
        stringsContains e "optimistic lock failed" = false →
        (bidPlacedAttemptsLoop repo a bt now fuel attempt).2 =
          .error ("failed to update item: " ++ e) := by
  intro fuel
  induction fuel with
  | zero => intro attempt rec h; simp [bidPlacedAttemptsLoop] at h
  | succ n ih =>
    intro attempt rec hrec e he hce
    cases hg : repo.GetItemAt attempt with
    | error e0 => simp [bidPlacedAttemptsLoop, hg] at hrec
    | ok item0 =>
      cases hp : decimal.NewFromString a with
      | none => simp [bidPlacedAttemptsLoop, hg, hp] at hrec
      | some price =>
        cases hu : repo.UpdateAt attempt with
        | none =>
          simp [bidPlacedAttemptsLoop, hg, hp, hu] at hrec
          subst hrec
          simp at he
          rw [hu] at he
          cases he
        | some e0 =>
          by_cases hc : stringsContains e0 "optimistic lock failed" = true
          · by_cases hlt : attempt < maxRetries
            · simp [bidPlacedAttemptsLoop, hg, hp, hu, hc, hlt] at hrec ⊢
              rcases hrec with hrec | hrec
              · subst hrec
                simp at he
                rw [hu] at he
                cases he
                rw [hc] at hce
                cases hce
              · exact ih (attempt + 1) rec hrec e he hce
            · simp [bidPlacedAttemptsLoop, hg, hp, hu, hc, hlt] at hrec
              subst hrec
              simp at he
              rw [hu] at he
              cases he
              rw [hc] at hce
              cases hce
          · simp [bidPlacedAttemptsLoop, hg, hp, hu, hc] at hrec
            subst hrec
            simp at he
            rw [hu] at he
            cases he
            simp [bidPlacedAttemptsLoop, hg, hp, hu, hc]

/-- With the item found, the amount parsed, and a conflicting update at every
attempt, exhausting the attempt window ends in the terminal retries-exhausted
error. `attempt + fuel = maxRetries + 1` is the loop's invariant relating the
current attempt number to the remaining iterations. -/
theorem bidPlacedAttemptsLoop_exhaust (repo : RepoBehavior) (a : String)
    (bt now : GoTime) (p : Decimal) (hp : decimal.NewFromString a = some p)
    (hg : ∀ n, 1 ≤ n → n ≤ maxRetries → ∃ it, repo.GetItemAt n = .ok it)
    (hu : ∀ n, 1 ≤ n → n ≤ maxRetries → ∃ e, repo.UpdateAt n = some e ∧
      stringsContains e "optimistic lock failed" = true) :
    ∀ (fuel attempt : Nat), attempt + fuel = maxRetries + 1 → 1 ≤ attempt →
      attempt ≤ maxRetries →
      (bidPlacedAttemptsLoop repo a bt now fuel attempt).2 =
        .error "failed to update item after 3 retries due to concurrent modifications" := by
  intro fuel
  induction fuel with
  | zero =>
    intro attempt h1 h2 h3
    have : maxRetries = 3 := rfl
    omega
  | succ n ih =>
    intro attempt h1 h2 h3
    obtain ⟨it, hgA⟩ := hg attempt h2 h3
    obtain ⟨e, huA, hcA⟩ := hu attempt h2 h3
    by_cases hlt : attempt < maxRetries
    · have hrec := ih (attempt + 1) (by omega) (by omega) hlt
      simp [bidPlacedAttemptsLoop, hgA, hp, huA, hcA, hlt, hrec]
    · simp [bidPlacedAttemptsLoop, hgA, hp, huA, hcA, hlt]

/-- C4: during bid.placed processing the read-modify-write cycle runs at most
3 attempts, numbered consecutively from 1; every executed attempt re-fetches
the item fresh and writes exactly the transformation of its own fresh read;
an attempt backed off (sleeping `10ms × attempt`) only on an
optimistic-concurrency conflict with attempts remaining, and every attempt
followed by another one backed off; any other persistence error makes the
loop return that error with no further attempt; and conflicts at all 3
attempts return the terminal retries-exhausted handler error. -/
theorem bidPlaced_retry_discipline (repo : RepoBehavior) (a : String)
    (bt now : GoTime) :
    (bidPlacedAttempts repo a bt now).1.length ≤ 3 ∧
    (bidPlacedAttempts repo a bt now).1.map Attempt.n =
      List.range' 1 (bidPlacedAttempts repo a bt now).1.length ∧
    (∀ rec ∈ (bidPlacedAttempts repo a bt now).1,
      repo.GetItemAt rec.n = .ok rec.read ∧
      ∃ p, decimal.NewFromString a = some p ∧
        rec.written = bidPlacedApply rec.read p bt now) ∧
    (∀ rec ∈ (bidPlacedAttempts repo a bt now).1,
      rec.sleptMs = none ∨
      (∃ e, repo.UpdateAt rec.n = some e ∧
        stringsContains e "optimistic lock failed" = true ∧
        rec.sleptMs = some (10 * rec.n) ∧ rec.n < 3)) ∧
    (∀ (k : Nat) (h : k + 1 < (bidPlacedAttempts repo a bt now).1.length),
      ((bidPlacedAttempts repo a bt now).1.get ⟨k, Nat.lt_of_succ_lt h⟩).sleptMs ≠ none) ∧
    (∀ rec ∈ (bidPlacedAttempts repo a bt now).1,
      ∀ e, repo.UpdateAt rec.n = some e →
        stringsContains e "optimistic lock failed" = false →
        (bidPlacedAttempts repo a bt now).2 = .error ("failed to update item: " ++ e)) ∧
    ((∃ p, decimal.NewFromString a = some p) →
      (∀ n, 1 ≤ n → n ≤ 3 → ∃ it, repo.GetItemAt n = .ok it) →
      (∀ n, 1 ≤ n → n ≤ 3 → ∃ e, repo.UpdateAt n = some e ∧
        stringsContains e "optimistic lock failed" = true) →
      (bidPlacedAttempts repo a bt now).2 =
        .error "failed to update item after 3 retries due to concurrent modifications") := by
  refine ⟨bidPlacedAttemptsLoop_length_le repo a bt now maxRetries 1,
          bidPlacedAttemptsLoop_map_n repo a bt now maxRetries 1,
          bidPlacedAttemptsLoop_fresh repo a bt now maxRetries 1,
          ?_,
          bidPlacedAttemptsLoop_nonfinal_slept repo a bt now maxRetries 1,
          bidPlacedAttemptsLoop_other_error repo a bt now maxRetries 1,
          ?_⟩
  · intro rec hrec
    exact bidPlacedAttemptsLoop_slept repo a bt now maxRetries 1 rec hrec
  · rintro ⟨p, hp⟩ hg hu
    exact bidPlacedAttemptsLoop_exhaust repo a bt now p hp hg hu maxRetries 1 rfl
      (by decide) (by decide)

/-- A repository behavior that conflicts once, then succeeds. -/
def wRepoRetry : RepoBehavior :=
  ⟨fun _ => .ok exItem, fun n => if n == 1 then some "optimistic lock failed" else none⟩

/-- A repository behavior whose every update fails with an error message
containing "optimistic lock failed". -/
def wRepoConflict : RepoBehavior :=
  ⟨fun _ => .ok exItem, fun _ => some "pq: optimistic lock failed for items row"⟩

/-- Witness for C4: under a conflict-then-success behavior the handler runs
exactly two attempts, numbered 1 and 2, the first of which backed off; under
an always-conflict behavior all three attempts are consumed and the terminal
retries-exhausted error is returned. -/
theorem bidPlaced_retry_discipline_witness :
    (bidPlacedAttempts wRepoRetry "150.00" 0 0).1.length ≤ 3 ∧
    (bidPlacedAttempts wRepoRetry "150.00" 0 0).1.map Attempt.n = [1, 2] ∧
    ((bidPlacedAttempts wRepoRetry "150.00" 0 0).1.get ⟨0, by decide⟩).sleptMs ≠ none ∧
    (bidPlacedAttempts wRepoConflict "150.00" 0 0).2 =
      .error "failed to update item after 3 retries due to concurrent modifications" := by
  have h1 := bidPlaced_retry_discipline wRepoRetry "150.00" 0 0
  have h2 := bidPlaced_retry_discipline wRepoConflict "150.00" 0 0
  refine ⟨h1.1, ?_, ?_, ?_⟩
  · rw [h1.2.1]
    decide
  · exact h1.2.2.2.2.1 0 (by decide)
  · exact h2.2.2.2.2.2.2 ⟨⟨15000, -2⟩, by decide⟩
      (fun n _ _ => ⟨exItem, rfl⟩)
      (fun n _ _ => ⟨"pq: optimistic lock failed for items row", rfl, by decide⟩)
